import Mathlib

/-!
Formal model of the slot-booking automation program in `automated.py`
(UK driving-test booking bot).

Every definition below is a shallow embedding of a concrete piece of the
Python source.  Effectful page interactions are modelled by passing the
observable page data (attribute strings, panel contents, response events)
as explicit inputs; `Option` models Python values that may be `None` or
operations that raise an exception that the surrounding code catches.
Strings are compared and searched through their code-point sequences,
matching Python's semantics for `<`, `in` and tuple comparison on `str`.
Wall-clock timestamps (`time.time()`) are modelled as integers; only
order comparisons on them occur in the source.
-/

namespace Booking

/-! ### Code-point string primitives

Python compares strings lexicographically by code point and `needle in hay`
is substring containment.  The built-in `String` operations of Lean are
iterator-based and do not reduce well inside the kernel, so the model works
on the code-point list `String.data` mapped through `Char.toNat`. -/

/-- Code-point sequence of a string (Python compares `str` this way). -/
def strKey (s : String) : List Nat := s.data.map Char.toNat

/-- Lexicographic strict comparison of code-point sequences; this is exactly
Python's `<` on strings. -/
def natsLtB : List Nat → List Nat → Bool
  | [], [] => false
  | [], _ :: _ => true
  | _ :: _, [] => false
  | a :: as, b :: bs => if a < b then true else if b < a then false else natsLtB as bs

/-- Whether the first list is an initial segment of the second. -/
def leadsWith : List Nat → List Nat → Bool
  | [], _ => true
  | _ :: _, [] => false
  | a :: as, b :: bs => a == b && leadsWith as bs

/-- Substring containment on code-point sequences. -/
def hasSubNats (p : List Nat) : List Nat → Bool
  | [] => leadsWith p []
  | b :: bs => leadsWith p (b :: bs) || hasSubNats p bs

/-- Python's `needle in hay` on strings. -/
def containsSub (needle hay : String) : Bool := hasSubNats (strKey needle) (strKey hay)

/-- ASCII lower-casing of one code point.  The source calls `str.lower()`
only to search for the ASCII keywords "confirmed"/"booked"; the full
Unicode case table is irrelevant to those searches. -/
def lowerCode (n : Nat) : Nat := if 65 ≤ n ∧ n ≤ 90 then n + 32 else n

/-- Code-point sequence of `text.lower()`. -/
def lowerKey (s : String) : List Nat := (strKey s).map lowerCode

/-- Split a code-point-level character list on a separator, Python
`str.split(sep)` with a one-character separator. -/
def splitOnChar (c : Char) : List Char → List (List Char)
  | [] => [[]]
  | a :: as =>
    let r := splitOnChar c as
    if a == c then [] :: r
    else
      match r with
      | [] => [[a]]
      | g :: gs => (a :: g) :: gs

/-- Decimal digit value of a character, if it is an ASCII digit. -/
def digitVal? (c : Char) : Option Nat :=
  if 48 ≤ c.toNat ∧ c.toNat ≤ 57 then some (c.toNat - 48) else none

/-- Accumulating decimal reader for `charsToNat?`. -/
def digitsAcc : Nat → List Char → Option Nat
  | acc, [] => some acc
  | acc, c :: cs =>
    match digitVal? c with
    | none => none
    | some d => digitsAcc (acc * 10 + d) cs

/-- Read a non-empty all-digit character list as a natural number.  This is
the digit-string case of Python's `int(...)`; the source only ever feeds it
`\d+` groups produced by `strptime` patterns or DOM attribute
`HH:MM` fields. -/
def charsToNat? : List Char → Option Nat
  | [] => none
  | l => digitsAcc 0 l

/-! ### Data model (the dataclasses of the source) -/

/-- `TestCenter` dataclass (id, name).  The optional `distance` field is
parsed from the configuration but never read by the automation logic, so it
is omitted from the model. -/
structure TestCenter where
  id : String
  name : String
deriving DecidableEq

/-- A calendar date as `datetime.strptime(s, "%Y-%m-%d")` produces it
(midnight time component, so comparisons are purely on the date triple). -/
structure Date where
  year : Nat
  month : Nat
  day : Nat
deriving DecidableEq

/-- Strict comparison of midnight `datetime` values, i.e. lexicographic on
(year, month, day). -/
def Date.lt (a b : Date) : Prop :=
  a.year < b.year ∨
    (a.year = b.year ∧ (a.month < b.month ∨ (a.month = b.month ∧ a.day < b.day)))

instance : DecidableRel Date.lt := fun a b => by unfold Date.lt; infer_instance

/-- `DateRange` dataclass. -/
structure DateRange where
  startDate : Date
  endDate : Date
deriving DecidableEq

/-- `TimePreference` dataclass: "HH:MM" strings, parsed on every use. -/
structure TimePreference where
  earliest : String
  latest : String
deriving DecidableEq

/-- The slice of the `Config` dataclass consumed by the scanning and
selection logic.  Credentials, proxies, captcha and notification settings
are consumed by components modelled separately below. -/
structure Config where
  testCenters : List TestCenter
  dateRange : DateRange
  timePreference : TimePreference
  preferredDays : List Nat
deriving DecidableEq

/-- Gregorian leap-year test (as `datetime` uses). -/
def isLeap (y : Nat) : Bool := y % 4 == 0 && (y % 100 != 0 || y % 400 == 0)

/-- Number of days in a month of the proleptic Gregorian calendar. -/
def daysInMonth (y m : Nat) : Nat :=
  if m == 2 then (if isLeap y then 29 else 28)
  else if m == 4 || m == 6 || m == 9 || m == 11 then 30
  else 31

/-- Python's `datetime.weekday()`: 0 = Monday … 6 = Sunday, computed by
Zeller's congruence (valid for the Gregorian dates `strptime` accepts). -/
def pyWeekday (dt : Date) : Nat :=
  let y := if dt.month ≤ 2 then dt.year - 1 else dt.year
  let m := if dt.month ≤ 2 then dt.month + 12 else dt.month
  let k := y % 100
  let j := y / 100
  let h := (dt.day + (13 * (m + 1)) / 5 + k + k / 4 + j / 4 + 5 * j) % 7
  (h + 5) % 7

/-- `datetime.strptime(s, "%Y-%m-%d")`: exactly three dash-separated groups,
a 4-digit year (`datetime` further requires year ≥ 1), a 1-2-digit month in
1..12 and a 1-2-digit day that exists in that month; anything else raises
`ValueError`, modelled as `none`. -/
def parseDateStr (s : String) : Option Date :=
  match splitOnChar (Char.ofNat 45) s.data with
  | [ys, ms, ds] =>
    match charsToNat? ys, charsToNat? ms, charsToNat? ds with
    | some y, some m, some d =>
      if ys.length = 4 ∧ 1 ≤ y ∧ ms.length ≤ 2 ∧ 1 ≤ m ∧ m ≤ 12 ∧
          ds.length ≤ 2 ∧ 1 ≤ d ∧ d ≤ daysInMonth y m
      then some ⟨y, m, d⟩ else none
    | _, _, _ => none
  | _ => none

/-- `hour, minute = map(int, s.split(":"))`: exactly two colon-separated
digit groups, else the `ValueError`/unpacking error is modelled as `none`. -/
def parseClock (s : String) : Option (Nat × Nat) :=
  match splitOnChar (Char.ofNat 58) s.data with
  | [hs, ms] =>
    match charsToNat? hs, charsToNat? ms with
    | some h, some m => some (h, m)
    | _, _ => none
  | _ => none

/-- Minutes since midnight, `hour * 60 + minute` as in the source. -/
def timeValue (hm : Nat × Nat) : Nat := hm.1 * 60 + hm.2

/-! ### SlotScanner: `DrivingTestBooker.check_available_slots` -/

/-- A slot dictionary as built at `automated.py:1033-1038`: the test-centre
name and the raw `data-date`/`data-time` attribute strings, plus the locator
used to re-find the control. -/
structure Slot where
  testCenter : String
  date : String
  time : String
  elementSelector : String
deriving DecidableEq

/-- Single-quote character, used inside the CSS locator string. -/
def sq : String := String.singleton (Char.ofNat 39)

/-- The `element_selector` f-string of `automated.py:1037`. -/
def slotSelector (dateStr timeStr : String) : String :=
  ".SlotPicker-day[data-date=" ++ sq ++ dateStr ++ sq ++
    "] + .SlotPicker-day-panel .SlotPicker-time[data-time=" ++ sq ++ timeStr ++ sq ++ "]"

/-- One `.SlotPicker-time` element: its `data-time` attribute
(`none` models `get_attribute` returning `None`). -/
structure TimeCell where
  timeAttr : Option String
deriving DecidableEq

/-- One non-disabled `.SlotPicker-day` element: its `data-date` attribute and
the time-slot panel revealed by clicking it (`none` models the
`wait_for_selector(".SlotPicker-timeSlots")` timeout). -/
structure DateCell where
  dateAttr : Option String
  timesPanel : Option (List TimeCell)
deriving DecidableEq

/-- The inner loop of `check_available_slots` (`automated.py:1017-1038`) over
the time elements of one surviving date.  `none` models an uncaught
`ValueError` from `int(...)` on a malformed `data-time` or configured time
bound, which aborts the whole scan of the centre. -/
def timesScan (tp : TimePreference) (center dateStr : String) :
    List TimeCell → Option (List Slot)
  | [] => some []
  | cell :: rest =>
    match cell.timeAttr with
    | none => timesScan tp center dateStr rest
    | some ts =>
      if ts = "" then timesScan tp center dateStr rest
      else
        match parseClock ts, parseClock tp.earliest, parseClock tp.latest with
        | some t, some e, some l =>
          match timesScan tp center dateStr rest with
          | none => none
          | some slots =>
            if timeValue e ≤ timeValue t ∧ timeValue t ≤ timeValue l then
              some (⟨center, dateStr, ts, slotSelector dateStr ts⟩ :: slots)
            else some slots
        | _, _, _ => none

/-- The outer loop of `check_available_slots` (`automated.py:981-1038`) over
the non-disabled date elements.  A missing/empty/unparseable `data-date` or a
missing time panel is skipped (`continue` in the source); `none` propagates
the abort from `timesScan`. -/
def datesScan (cfg : Config) (center : String) : List DateCell → Option (List Slot)
  | [] => some []
  | cell :: rest =>
    match cell.dateAttr with
    | none => datesScan cfg center rest
    | some ds =>
      if ds = "" then datesScan cfg center rest
      else
        match parseDateStr ds with
        | none => datesScan cfg center rest
        | some d =>
          if Date.lt d cfg.dateRange.startDate ∨ Date.lt cfg.dateRange.endDate d then
            datesScan cfg center rest
          else if pyWeekday d ∈ cfg.preferredDays then
            match cell.timesPanel with
            | none => datesScan cfg center rest
            | some tcells =>
              match timesScan cfg.timePreference center ds tcells, datesScan cfg center rest with
              | some here, some there => some (here ++ there)
              | _, _ => none
          else datesScan cfg center rest

/-- `check_available_slots` (`automated.py:965-1050`): returns `[]` when the
centre search fails and `[]` when any exception is raised mid-scan (the
`except` block at line 1047), otherwise the accumulated slot list. -/
def checkAvailableSlots (cfg : Config) (tc : TestCenter) (searchOk : Bool)
    (cells : List DateCell) : List Slot :=
  if searchOk = false then []
  else
    match datesScan cfg tc.name cells with
    | none => []
    | some slots => slots

/-! ### Booking: `DrivingTestBooker.book_slot` -/

/-- The keyword test of `automated.py:1074`:
`"confirmed" in text.lower() or "booked" in text.lower()`. -/
def successKeyword (text : String) : Bool :=
  hasSubNats (strKey "confirmed") (lowerKey text) ||
    hasSubNats (strKey "booked") (lowerKey text)

/-- Observable outcome of `book_slot`: the returned boolean and whether
`notifier.notify_success` was invoked. -/
structure BookResult where
  success : Bool
  notified : Bool
deriving DecidableEq

/-- `book_slot` (`automated.py:1052-1098`).  `clicksOk` models the three
click steps raising no exception; `confirmationText` models the
confirmation surface: `none` = `wait_for_selector(".confirmation-block")`
timed out, `some none` = the surface appeared but `text_content` returned
`None` (the subsequent `.lower()` raises, caught at line 1091),
`some (some t)` = the surface appeared with text `t`.  Notification is
dispatched exactly on the keyword-success path (line 1078). -/
def bookSlot (clicksOk : Bool) (confirmationText : Option (Option String)) : BookResult :=
  if clicksOk = false then ⟨false, false⟩
  else
    match confirmationText with
    | none => ⟨false, false⟩
    | some none => ⟨false, false⟩
    | some (some t) => if successKeyword t then ⟨true, true⟩ else ⟨false, false⟩

/-! ### Selection and the monitoring cycle: `run_monitoring_cycle` -/

/-- Strict comparison of `(date, time)` sort keys, Python's tuple `<` on the
pair of strings used at `automated.py:1122`. -/
def keyLtB (p q : List Nat × List Nat) : Bool :=
  if natsLtB p.1 q.1 then true
  else if p.1 = q.1 then natsLtB p.2 q.2
  else false

/-- Sort key of a slot: the code points of `(slot["date"], slot["time"])`. -/
def slotKey (s : Slot) : List Nat × List Nat := (strKey s.date, strKey s.time)

/-- Non-strict sort order on slots: `a` may precede `b` in a stable
ascending sort by key, i.e. `b`'s key is not strictly below `a`'s. -/
def slotLe (a b : Slot) : Prop := keyLtB (slotKey b) (slotKey a) = false

instance : DecidableRel slotLe := fun _ _ => instDecidableEqBool _ _

/-- `available_slots.sort(key=lambda x: (x["date"], x["time"]))`
(`automated.py:1122`).  Python's sort is stable, and a stable ascending sort
is uniquely determined by its key order, so the stable `insertionSort` of
Mathlib computes the same list. -/
def sortSlots (l : List Slot) : List Slot := List.insertionSort slotLe l

/-- Observable outcome of one monitoring cycle: the slots passed to
`book_slot`, in order, and the returned boolean. -/
structure CycleResult where
  attempts : List Slot
  success : Bool
deriving DecidableEq

/-- The per-centre loop of `run_monitoring_cycle` (`automated.py:1113-1133`):
for each centre in configured order, scan it; if any slots were found, sort
them and attempt to book the earliest; on success return immediately,
otherwise continue with the next centre.  `scan` abstracts
`check_available_slots` and `bookOk` abstracts the boolean returned by
`book_slot` for the attempted slot.  (The `rotate_if_needed` bookkeeping
call at line 1115 mutates only proxy state and is modelled with the rotator
below; it cannot affect the attempt sequence.) -/
def cycleCenters (scan : TestCenter → List Slot) (bookOk : Slot → Bool) :
    List TestCenter → CycleResult
  | [] => ⟨[], false⟩
  | tc :: rest =>
    match sortSlots (scan tc) with
    | [] => cycleCenters scan bookOk rest
    | earliest :: _ =>
      if bookOk earliest then ⟨[earliest], true⟩
      else
        let r := cycleCenters scan bookOk rest
        ⟨earliest :: r.attempts, r.success⟩

/-- `run_monitoring_cycle` (`automated.py:1100-1140`): when not logged in,
a failed login ends the cycle with no attempts; otherwise the per-centre
loop runs. -/
def runMonitoringCycle (loggedIn loginOk : Bool) (scan : TestCenter → List Slot)
    (bookOk : Slot → Bool) (centers : List TestCenter) : CycleResult :=
  if loggedIn = false ∧ loginOk = false then ⟨[], false⟩
  else cycleCenters scan bookOk centers

/-- Specification-side helper: the elements of a list up to and including
the first one satisfying `p`. -/
def takeThroughFirst {α : Type} (p : α → Bool) : List α → List α
  | [] => []
  | a :: as => if p a then [a] else a :: takeThroughFirst p as

/-! ### ProxyRotator and the response listener -/

/-- `ProxyConfig` dataclass; `rotation_interval` is in seconds. -/
structure ProxyConfig where
  host : String
  port : Nat
  username : String
  password : String
  rotationInterval : Int
deriving DecidableEq

/-- Mutable state of `ProxyRotator`: the pool, `current_index` and
`last_rotation_time` (an integer timestamp standing for `time.time()`). -/
structure RotatorState where
  proxies : List ProxyConfig
  currentIndex : Nat
  lastRotationTime : Int
deriving DecidableEq

/-- `ProxyRotator.rotate` (`automated.py:461-466`): advance the index
cyclically and reset the rotation clock to the current time. -/
def rotate (now : Int) (r : RotatorState) : RotatorState :=
  { r with currentIndex := (r.currentIndex + 1) % r.proxies.length, lastRotationTime := now }

/-- `ProxyRotator.rotate_if_needed` (`automated.py:448-459`): rotate and
report `true` exactly when the elapsed time since the last rotation reaches
the current endpoint's interval.  The `none` branch corresponds to an
out-of-range index, on which the source would raise `IndexError`; every
theorem below assumes a well-formed pool. -/
def rotateIfNeeded (now : Int) (r : RotatorState) : Bool × RotatorState :=
  match r.proxies.get? r.currentIndex with
  | none => (false, r)
  | some p =>
    if p.rotationInterval ≤ now - r.lastRotationTime then (true, rotate now r)
    else (false, r)

/-- A response event as seen by the `handle_response` listener. -/
structure ResponseEv where
  url : String
  status : Nat
deriving DecidableEq

/-- The traffic filter of `handle_response` (`automated.py:734`):
`"api" in url or "ajax" in url`. -/
def apiLike (url : String) : Bool := containsSub "api" url || containsSub "ajax" url

/-- `handle_response` (`automated.py:732-743`): only API-like traffic is
inspected; on a 403/429 status, `rotate_if_needed` runs and a full session
restart happens exactly when it rotated.  Returns the new rotator state and
whether `restart_session` was performed. -/
def handleResponse (resp : ResponseEv) (now : Int) (r : RotatorState) :
    RotatorState × Bool :=
  if apiLike resp.url then
    if resp.status = 403 ∨ resp.status = 429 then
      match rotateIfNeeded now r with
      | (true, r2) => (r2, true)
      | (false, r2) => (r2, false)
    else (r, false)
  else (r, false)

/-! ### Session restart: `restart_session` -/

/-- Observable events of a session restart. -/
inductive SessionEv where
  | closePage
  | closeContext
  | closeBrowser
  | setupBrowser
deriving DecidableEq

/-- Session-owning state of `DrivingTestBooker`: which handles are live and
the `logged_in` flag. -/
structure SessionSt where
  hasPage : Bool
  hasContext : Bool
  hasBrowser : Bool
  loggedIn : Bool
deriving DecidableEq

/-- `restart_session` (`automated.py:745-763`): close page, then context,
then browser (each only if live), reset `logged_in` to `False`, then
`setup_browser` provisions fresh handles (which does not touch
`logged_in`). -/
def restartSession (s : SessionSt) : SessionSt × List SessionEv :=
  let evs :=
    (if s.hasPage then [SessionEv.closePage] else []) ++
      (if s.hasContext then [SessionEv.closeContext] else []) ++
      (if s.hasBrowser then [SessionEv.closeBrowser] else []) ++
      [SessionEv.setupBrowser]
  (⟨true, true, true, false⟩, evs)

/-! ### FingerPrintGenerator -/

/-- `FingerPrintGenerator.CHROME_VERSIONS`. -/
def chromeVersions : List String :=
  ["112.0.5615.49", "112.0.5615.121", "112.0.5615.138",
   "113.0.5672.63", "113.0.5672.92", "113.0.5672.127",
   "114.0.5735.90", "114.0.5735.106", "114.0.5735.133",
   "115.0.5790.102", "115.0.5790.171"]

/-- One of the three `USER_AGENTS` templates with the version substituted
(the `.format(version=...)` call of `automated.py:159`). -/
def uaTemplateApply (i : Nat) (version : String) : String :=
  match i % 3 with
  | 0 => "Mozilla/5.0 (Windows NT 10.0; Win64; x64) AppleWebKit/537.36 (KHTML, like Gecko) Chrome/"
      ++ version ++ " Safari/537.36"
  | 1 => "Mozilla/5.0 (Macintosh; Intel Mac OS X 10_15_7) AppleWebKit/537.36 (KHTML, like Gecko) Chrome/"
      ++ version ++ " Safari/537.36"
  | _ => "Mozilla/5.0 (X11; Linux x86_64) AppleWebKit/537.36 (KHTML, like Gecko) Chrome/"
      ++ version ++ " Safari/537.36"

/-- `FingerPrintGenerator.VIEWPORT_SIZES` as (width, height) pairs. -/
def viewportSizes : List (Nat × Nat) :=
  [(1366, 768), (1440, 900), (1536, 864), (1600, 900),
   (1920, 1080), (2048, 1152), (2560, 1440)]

/-- The dictionary returned by `FingerPrintGenerator.generate`. -/
structure Fingerprint where
  userAgent : String
  viewportWidth : Nat
  viewportHeight : Nat
  deviceScaleFactor : ℚ
  hasTouch : Bool
  locale : String
  timezoneId : String
deriving DecidableEq

/-- `FingerPrintGenerator.generate` (`automated.py:154-169`).  Each
`random.choice(xs)` is modelled by an arbitrary index reduced modulo the
pool size, so ranging over all index arguments ranges over every possible
output of the generator. -/
def fpGenerate (vIdx uaIdx vpIdx dsfIdx touchIdx localeIdx : Nat) : Fingerprint :=
  let version := chromeVersions.getD (vIdx % chromeVersions.length) ""
  let vp := viewportSizes.getD (vpIdx % viewportSizes.length) (0, 0)
  { userAgent := uaTemplateApply uaIdx version
    viewportWidth := vp.1
    viewportHeight := vp.2
    deviceScaleFactor := [(1 : ℚ), 1.25, 1.5, 2].getD (dsfIdx % 4) 1
    hasTouch := [true, false].getD (touchIdx % 2) true
    locale := ["en-GB", "en-US"].getD (localeIdx % 2) ""
    timezoneId := "Europe/London" }

/-! ### HoneypotDetector and the typing primitive's targets -/

/-- An `input` element as the honeypot selectors and the id-based field
lookups observe it: its `type`, `id`, `name` and `style` attributes and its
computed visibility. -/
structure PageField where
  typeAttr : String
  idAttr : String
  nameAttr : String
  style : String
  visible : Bool
deriving DecidableEq

/-- Disjunction of the nine `honeypot_selectors` of
`automated.py:264-277`; `[attr*="x"]` is substring containment on the
attribute value. -/
def honeypotMatch (f : PageField) : Bool :=
  (f.typeAttr == "text" && containsSub "display: none" f.style) ||
  (f.typeAttr == "text" && containsSub "visibility: hidden" f.style) ||
  containsSub "opacity: 0" f.style ||
  containsSub "hp" f.nameAttr ||
  containsSub "honey" f.nameAttr ||
  containsSub "pot" f.nameAttr ||
  containsSub "bot" f.nameAttr ||
  (containsSub "position: absolute" f.style && containsSub "left: -" f.style) ||
  (containsSub "position: absolute" f.style && containsSub "top: -" f.style)

/-- `HoneypotDetector.identify_and_avoid_honeypots` (`automated.py:261-294`):
the set of fields the scan flags.  In the source this function only logs
each flagged field and `continue`s; it installs no state that the typing or
clicking primitives consult. -/
def identifyAndAvoidHoneypots (fields : List PageField) : List PageField :=
  fields.filter (fun f => honeypotMatch f)

/-- Resolution of an `#id` selector by `wait_for_selector`: the first field
with that id. -/
def findById (fields : List PageField) (idStr : String) : Option PageField :=
  fields.find? (fun f => f.idAttr == idStr)

/-- The fields `type_like_human` writes to during the login flow
(`automated.py:807-809`), resolved purely by their id selectors —
independently of the honeypot scan run just before at line 804. -/
def loginTypedFields (fields : List PageField) : List PageField :=
  (findById fields "driving-licence-number").toList ++
    (findById fields "application-reference-number").toList

/-! ### Typing primitive: `type_like_human` -/

/-- The random choices of one character step of `type_like_human`: whether
the 3% mistake branch fires and which wrong character it types. -/
structure TypeDecision where
  mistake : Bool
  wrongChar : Char
deriving DecidableEq

/-- One iteration of the typing loop (`automated.py:861-875`): optionally
type a wrong character and press Backspace once, then type the correct
character.  Field content is the character list; Backspace removes the last
character. -/
def typeOneChar (content : List Char) (d : TypeDecision) (c : Char) : List Char :=
  let afterMistake := if d.mistake then (content ++ [d.wrongChar]).dropLast else content
  afterMistake ++ [c]

/-- The typing loop over the target text, consuming one random decision per
character (an exhausted decision list behaves as "no mistake"). -/
def typeCharsGo : List Char → List Char → List TypeDecision → List Char
  | content, [], _ => content
  | content, c :: cs, ds =>
    typeCharsGo (typeOneChar content (ds.headD ⟨false, c⟩) c) cs ds.tail

/-- `type_like_human` (`automated.py:848-877`): triple-click selects the
existing content and Backspace deletes it, so typing starts on an empty
field regardless of `initial`; then the loop types `text`. -/
def typeLikeHuman (_initial : List Char) (text : List Char) (ds : List TypeDecision) :
    List Char :=
  typeCharsGo [] text ds

/-! ### Concrete data for the specification scenario

Criteria 2024-06-01..2024-06-30, weekdays {Monday, Wednesday}, window
09:00-12:00; centre A yields (2024-06-03, 10:00) and (2024-06-05, 09:30),
centre B yields (2024-06-03, 09:00). -/

/-- Scenario centre A. -/
def centerA : TestCenter := ⟨"centre-a", "A"⟩

/-- Scenario centre B. -/
def centerB : TestCenter := ⟨"centre-b", "B"⟩

/-- Scenario criteria. -/
def scenarioCfg : Config :=
  { testCenters := [centerA, centerB]
    dateRange := ⟨⟨2024, 6, 1⟩, ⟨2024, 6, 30⟩⟩
    timePreference := ⟨"09:00", "12:00"⟩
    preferredDays := [0, 2] }

/-- Scenario calendar for centre A. -/
def cellsA : List DateCell :=
  [⟨some "2024-06-03", some [⟨some "10:00"⟩]⟩,
   ⟨some "2024-06-05", some [⟨some "09:30"⟩]⟩]

/-- Scenario calendar for centre B. -/
def cellsB : List DateCell :=
  [⟨some "2024-06-03", some [⟨some "09:00"⟩]⟩]

/-- Scenario scanner: `check_available_slots` run on each centre's page. -/
def scenarioScan (tc : TestCenter) : List Slot :=
  checkAvailableSlots scenarioCfg tc true (if tc.id == "centre-a" then cellsA else cellsB)

/-- The slot the specification scenario expects to be selected. -/
def slotB : Slot := ⟨"B", "2024-06-03", "09:00", slotSelector "2024-06-03" "09:00"⟩

/-- A proxy endpoint used in concrete instantiations. -/
def exProxy : ProxyConfig := ⟨"proxy1.example", 8080, "user", "pass", 600⟩

/-- A second proxy endpoint with a short rotation interval. -/
def exProxy2 : ProxyConfig := ⟨"proxy2.example", 8081, "user", "pass", 30⟩

/-- A one-endpoint rotator state, clock at 0. -/
def exRotator : RotatorState := ⟨[exProxy], 0, 0⟩

/-- A two-endpoint rotator state currently on the last endpoint. -/
def exRotator2 : RotatorState := ⟨[exProxy, exProxy2], 1, 50⟩

/-- A field that is both the login target and honeypot-flagged: its id is
the licence-number selector target while its name contains "bot" and its
style carries zero opacity. -/
def trapField : PageField :=
  ⟨"text", "driving-licence-number", "robot-check", "opacity: 0", false⟩

/-! ## Order facts about the sort key -/

/-- Lexicographic code-point comparison is irreflexive. -/
theorem natsLtB_irrefl : ∀ l : List Nat, natsLtB l l = false := by
  intro l
  induction l with
  | nil => rfl
  | cons a as ih => simp [natsLtB, ih]

/-- Lexicographic code-point comparison is asymmetric. -/
theorem natsLtB_asymm : ∀ x y : List Nat, natsLtB x y = true → natsLtB y x = false := by
  intro x
  induction x with
  | nil =>
    intro y h
    cases y with
    | nil => simp [natsLtB] at h
    | cons b bs => simp [natsLtB]
  | cons a as ih =>
    intro y h
    cases y with
    | nil => simp [natsLtB] at h
    | cons b bs =>
      simp only [natsLtB] at h ⊢
      rcases Nat.lt_trichotomy a b with hab | hab | hab
      · rw [if_neg (by omega), if_pos hab]
      · subst hab
        rw [if_neg (by omega), if_neg (by omega)] at h ⊢
        exact ih bs h
      · rw [if_neg (by omega), if_pos hab] at h
        exact absurd h (by simp)

/-- Lexicographic code-point comparison is transitive. -/
theorem natsLtB_trans :
    ∀ x y z : List Nat, natsLtB x y = true → natsLtB y z = true → natsLtB x z = true := by
  intro x
  induction x with
  | nil =>
    intro y z hxy hyz
    cases y with
    | nil => simp [natsLtB] at hxy
    | cons b bs =>
      cases z with
      | nil => simp [natsLtB] at hyz
      | cons c cs => simp [natsLtB]
  | cons a as ih =>
    intro y z hxy hyz
    cases y with
    | nil => simp [natsLtB] at hxy
    | cons b bs =>
      cases z with
      | nil => simp [natsLtB] at hyz
      | cons c cs =>
        simp only [natsLtB] at hxy hyz ⊢
        by_cases h1 : a < b
        · by_cases h2 : b < c
          · rw [if_pos (by omega)]
          · by_cases h3 : c < b
            · rw [if_neg h2, if_pos h3] at hyz
              exact absurd hyz (by simp)
            · rw [if_pos (by omega)]
        · by_cases h1b : b < a
          · rw [if_neg h1, if_pos h1b] at hxy
            exact absurd hxy (by simp)
          · have hab : a = b := by omega
            subst hab
            rw [if_neg h1, if_neg h1b] at hxy
            by_cases h2 : a < c
            · rw [if_pos h2]
            · by_cases h3 : c < a
              · rw [if_neg h2, if_pos h3] at hyz
                exact absurd hyz (by simp)
              · rw [if_neg h2, if_neg h3] at hyz ⊢
                exact ih bs cs hxy hyz

/-- Two sequences neither of which is lexicographically below the other are
equal. -/
theorem natsLtB_conn :
    ∀ x y : List Nat, natsLtB x y = false → natsLtB y x = false → x = y := by
  intro x
  induction x with
  | nil =>
    intro y hxy _
    cases y with
    | nil => rfl
    | cons b bs => simp [natsLtB] at hxy
  | cons a as ih =>
    intro y hxy hyx
    cases y with
    | nil => simp [natsLtB] at hyx
    | cons b bs =>
      simp only [natsLtB] at hxy hyx
      by_cases h1 : a < b
      · rw [if_pos h1] at hxy
        exact absurd hxy (by simp)
      · by_cases h2 : b < a
        · rw [if_pos h2] at hyx
          exact absurd hyx (by simp)
        · have hab : a = b := by omega
          subst hab
          rw [if_neg h1, if_neg h1] at hxy hyx
          rw [ih bs hxy hyx]

/-- The tuple key comparison is irreflexive. -/
theorem keyLtB_irrefl (p : List Nat × List Nat) : keyLtB p p = false := by
  simp [keyLtB, natsLtB_irrefl]

/-- Unfolding characterisation of the tuple key comparison. -/
theorem keyLtB_eq_true_iff (p q : List Nat × List Nat) :
    keyLtB p q = true ↔
      natsLtB p.1 q.1 = true ∨ (p.1 = q.1 ∧ natsLtB p.2 q.2 = true) := by
  unfold keyLtB
  by_cases h1 : natsLtB p.1 q.1 = true
  · simp [h1]
  · by_cases h2 : p.1 = q.1
    · simp [h1, h2]
    · simp [h1, h2]

/-- The tuple key comparison is asymmetric. -/
theorem keyLtB_asymm {p q : List Nat × List Nat} (h : keyLtB p q = true) :
    keyLtB q p = false := by
  rcases (keyLtB_eq_true_iff p q).mp h with h1 | ⟨heq, h2⟩
  · cases hqp : keyLtB q p with
    | false => rfl
    | true =>
      rcases (keyLtB_eq_true_iff q p).mp hqp with h3 | ⟨heq', _⟩
      · rw [natsLtB_asymm _ _ h1] at h3
        exact absurd h3 (by simp)
      · rw [heq'] at h1
        rw [natsLtB_irrefl] at h1
        exact absurd h1 (by simp)
  · cases hqp : keyLtB q p with
    | false => rfl
    | true =>
      rcases (keyLtB_eq_true_iff q p).mp hqp with h3 | ⟨_, h4⟩
      · rw [heq] at h3
        rw [natsLtB_irrefl] at h3
        exact absurd h3 (by simp)
      · rw [natsLtB_asymm _ _ h2] at h4
        exact absurd h4 (by simp)

/-- The tuple key comparison is transitive. -/
theorem keyLtB_trans {p q r : List Nat × List Nat}
    (h1 : keyLtB p q = true) (h2 : keyLtB q r = true) : keyLtB p r = true := by
  rcases (keyLtB_eq_true_iff p q).mp h1 with ha | ⟨hae, ha2⟩ <;>
    rcases (keyLtB_eq_true_iff q r).mp h2 with hb | ⟨hbe, hb2⟩
  · exact (keyLtB_eq_true_iff p r).mpr (Or.inl (natsLtB_trans _ _ _ ha hb))
  · rw [hbe] at ha
    exact (keyLtB_eq_true_iff p r).mpr (Or.inl ha)
  · rw [← hae] at hb
    exact (keyLtB_eq_true_iff p r).mpr (Or.inl hb)
  · exact (keyLtB_eq_true_iff p r).mpr
      (Or.inr ⟨hae.trans hbe, natsLtB_trans _ _ _ ha2 hb2⟩)

/-- Two keys neither of which is below the other are equal. -/
theorem keyLtB_conn {p q : List Nat × List Nat}
    (hpq : keyLtB p q = false) (hqp : keyLtB q p = false) : p = q := by
  have h1 : natsLtB p.1 q.1 = false := by
    cases hx : natsLtB p.1 q.1 with
    | false => rfl
    | true =>
      have := (keyLtB_eq_true_iff p q).mpr (Or.inl hx)
      rw [this] at hpq
      exact absurd hpq (by simp)
  have h1' : natsLtB q.1 p.1 = false := by
    cases hx : natsLtB q.1 p.1 with
    | false => rfl
    | true =>
      have := (keyLtB_eq_true_iff q p).mpr (Or.inl hx)
      rw [this] at hqp
      exact absurd hqp (by simp)
  have hfst : p.1 = q.1 := natsLtB_conn _ _ h1 h1'
  have h2 : natsLtB p.2 q.2 = false := by
    cases hx : natsLtB p.2 q.2 with
    | false => rfl
    | true =>
      have := (keyLtB_eq_true_iff p q).mpr (Or.inr ⟨hfst, hx⟩)
      rw [this] at hpq
      exact absurd hpq (by simp)
  have h2' : natsLtB q.2 p.2 = false := by
    cases hx : natsLtB q.2 p.2 with
    | false => rfl
    | true =>
      have := (keyLtB_eq_true_iff q p).mpr (Or.inr ⟨hfst.symm, hx⟩)
      rw [this] at hqp
      exact absurd hqp (by simp)
  have hsnd : p.2 = q.2 := natsLtB_conn _ _ h2 h2'
  exact Prod.ext hfst hsnd

/-- `slotLe` is reflexive. -/
theorem slotLe_refl (a : Slot) : slotLe a a := keyLtB_irrefl _

/-- `slotLe` is total. -/
theorem slotLe_total (a b : Slot) : slotLe a b ∨ slotLe b a := by
  unfold slotLe
  cases h : keyLtB (slotKey b) (slotKey a) with
  | false => exact Or.inl rfl
  | true => exact Or.inr (keyLtB_asymm h)

/-- `slotLe` is transitive. -/
theorem slotLe_trans (a b c : Slot) : slotLe a b → slotLe b c → slotLe a c := by
  unfold slotLe
  intro hab hbc
  cases hca : keyLtB (slotKey c) (slotKey a) with
  | false => rfl
  | true =>
    cases hbc' : keyLtB (slotKey b) (slotKey c) with
    | true =>
      have := keyLtB_trans hbc' hca
      rw [this] at hab
      exact absurd hab (by simp)
    | false =>
      have heq := keyLtB_conn hbc hbc'
      rw [heq] at hca
      rw [hca] at hab
      exact absurd hab (by simp)

/-- The sorted slot list is `Sorted` with respect to `slotLe`. -/
theorem sortSlots_sorted (l : List Slot) : List.Sorted slotLe (sortSlots l) :=
  @List.sorted_insertionSort _ slotLe _ ⟨slotLe_total⟩ ⟨slotLe_trans⟩ l

/-- The head of the sorted slot list is a minimum of the original list. -/
theorem sortSlots_head_min (l : List Slot) (s : Slot) (t : List Slot)
    (h : sortSlots l = s :: t) : s ∈ l ∧ ∀ x ∈ l, slotLe s x := by
  have hmem : s ∈ sortSlots l := by
    rw [h]
    exact List.mem_cons_self s t
  have hmem' : s ∈ l := (List.mem_insertionSort slotLe).mp hmem
  refine ⟨hmem', fun x hx => ?_⟩
  have hx' : x ∈ sortSlots l := (List.mem_insertionSort slotLe).mpr hx
  rw [h] at hx'
  rcases List.mem_cons.mp hx' with rfl | hxt
  · exact slotLe_refl _
  · have hs := sortSlots_sorted l
    rw [h] at hs
    exact List.rel_of_sorted_cons hs x hxt

/-- A list whose stable sort is empty is empty. -/
theorem sortSlots_eq_nil (l : List Slot) (h : sortSlots l = []) : l = [] := by
  have hlen := List.length_insertionSort slotLe l
  rw [show List.insertionSort slotLe l = sortSlots l from rfl, h] at hlen
  exact List.length_eq_zero.mp hlen.symm

/-! ## Selection behaviour of the monitoring cycle -/

/-- The first booking attempt of the per-centre loop is the per-centre
minimum of the first centre (in configured order) whose scan is non-empty. -/
theorem cycleCenters_head_of_first (scan : TestCenter → List Slot) (bookOk : Slot → Bool) :
    ∀ (pre : List TestCenter) (c0 : TestCenter) (post : List TestCenter),
      (∀ c ∈ pre, scan c = []) → scan c0 ≠ [] →
      ∃ s, (cycleCenters scan bookOk (pre ++ c0 :: post)).attempts.head? = some s ∧
        s ∈ scan c0 ∧ ∀ x ∈ scan c0, slotLe s x := by
  intro pre
  induction pre with
  | nil =>
    intro c0 post _ hc0
    cases h : sortSlots (scan c0) with
    | nil => exact absurd (sortSlots_eq_nil _ h) hc0
    | cons e t =>
      obtain ⟨hmem, hmin⟩ := sortSlots_head_min (scan c0) e t h
      refine ⟨e, ?_, hmem, hmin⟩
      simp only [List.nil_append, cycleCenters]
      rw [h]
      cases hbk : bookOk e <;> simp [hbk]
  | cons c pre ih =>
    intro c0 post hpre hc0
    have hc : scan c = [] := hpre c (List.mem_cons_self c pre)
    have hsort : sortSlots (scan c) = [] := by rw [hc]; rfl
    have hrec := ih c0 post (fun x hx => hpre x (List.mem_cons_of_mem c hx)) hc0
    simp only [List.cons_append, cycleCenters]
    rw [hsort]
    exact hrec

/-- Claim C1 (corrected): within one monitoring cycle the source does not
accumulate slots across locations.  The per-centre loop of
`run_monitoring_cycle` sorts each centre's slots by the string pair
(date, time) and attempts the first centre (in caller order) that yields
any slots, booking that centre's own earliest slot — not the global minimum
over all centres. -/
theorem cycle_first_claim_per_center_earliest
    (loggedIn loginOk : Bool) (scan : TestCenter → List Slot) (bookOk : Slot → Bool)
    (pre post : List TestCenter) (c0 : TestCenter)
    (hlog : loggedIn = true ∨ loginOk = true)
    (hpre : ∀ c ∈ pre, scan c = [])
    (hc0 : scan c0 ≠ []) :
    ∃ s, (runMonitoringCycle loggedIn loginOk scan bookOk
        (pre ++ c0 :: post)).attempts.head? = some s ∧
      s ∈ scan c0 ∧ ∀ x ∈ scan c0, slotLe s x := by
  have hrun : runMonitoringCycle loggedIn loginOk scan bookOk (pre ++ c0 :: post) =
      cycleCenters scan bookOk (pre ++ c0 :: post) := by
    unfold runMonitoringCycle
    rcases hlog with h | h <;> simp [h]
  rw [hrun]
  exact cycleCenters_head_of_first scan bookOk pre c0 post hpre hc0

/-- Witness for claim C1's corrected selection policy at the scenario data:
with centre A alone, the first attempt is A's per-centre earliest slot. -/
theorem cycle_first_claim_per_center_earliest_witness :
    ∃ s, (runMonitoringCycle true true scenarioScan (fun _ => true)
        [centerA]).attempts.head? = some s ∧
      s ∈ scenarioScan centerA ∧ ∀ x ∈ scenarioScan centerA, slotLe s x :=
  cycle_first_claim_per_center_earliest true true scenarioScan (fun _ => true) [] [] centerA
    (Or.inl rfl) (by simp) (by decide)

/-- Claim C1 counterexample: on the specification's own scenario (centre A
yields (2024-06-03, 10:00) and (2024-06-05, 09:30), centre B yields
(2024-06-03, 09:00), every booking succeeds) the slot actually attempted is
(2024-06-03, 10:00) at A, not the globally earliest (2024-06-03, 09:00)
at B that the claim predicts. -/
theorem cycle_scenario_selects_A_not_B :
    ((runMonitoringCycle true true scenarioScan (fun _ => true)
        [centerA, centerB]).attempts.map
      (fun s => (s.testCenter, s.date, s.time))) = [("A", "2024-06-03", "10:00")] ∧
    (("A", "2024-06-03", "10:00") : String × String × String) ≠
      ("B", "2024-06-03", "09:00") := by
  decide

/-- Claim C6 (corrected): after a failed claim the cycle never retries
another slot of the same centre, but it does continue to later centres; the
attempt sequence of a cycle is exactly the per-centre earliest slots of the
centres with non-empty scans, in caller order, truncated at the first
successful booking. -/
theorem cycle_at_most_one_attempt_per_center (scan : TestCenter → List Slot)
    (bookOk : Slot → Bool) :
    ∀ cs : List TestCenter,
      (cycleCenters scan bookOk cs).attempts =
        takeThroughFirst bookOk (cs.filterMap fun c => (sortSlots (scan c)).head?) := by
  intro cs
  induction cs with
  | nil => rfl
  | cons c rest ih =>
    cases h : sortSlots (scan c) with
    | nil => simp [cycleCenters, List.filterMap_cons, h, ih]
    | cons e t =>
      cases hbk : bookOk e <;>
        simp [cycleCenters, List.filterMap_cons, h, takeThroughFirst, hbk, ih]

/-- Claim C6 counterexample: in the scenario with every booking failing, the
first claim attempt (at centre A) fails and a second claim is still
attempted on centre B's slot within the same cycle. -/
theorem cycle_scenario_second_claim_after_failure :
    ((runMonitoringCycle true true scenarioScan (fun _ => false)
        [centerA, centerB]).attempts.map
      (fun s => (s.testCenter, s.date, s.time))) =
      [("A", "2024-06-03", "10:00"), ("B", "2024-06-03", "09:00")] := by
  decide

/-! ## Scanner filters -/

/-- Every slot emitted by the time loop carries the centre name, the
surviving date string, and a time that parses and lies inside the
configured window. -/
theorem timesScan_mem (tp : TimePreference) (center dateStr : String) :
    ∀ (cells : List TimeCell) (res : List Slot),
      timesScan tp center dateStr cells = some res →
      ∀ s ∈ res, s.testCenter = center ∧ s.date = dateStr ∧
        ∃ t e l, parseClock s.time = some t ∧ parseClock tp.earliest = some e ∧
          parseClock tp.latest = some l ∧
          timeValue e ≤ timeValue t ∧ timeValue t ≤ timeValue l := by
  intro cells
  induction cells with
  | nil =>
    intro res h s hs
    simp only [timesScan, Option.some.injEq] at h
    subst h
    simp at hs
  | cons cell rest ih =>
    intro res h s hs
    simp only [timesScan] at h
    cases hta : cell.timeAttr with
    | none =>
      rw [hta] at h
      dsimp only at h
      exact ih res h s hs
    | some ts =>
      rw [hta] at h
      dsimp only at h
      by_cases hts : ts = ""
      · rw [if_pos hts] at h
        exact ih res h s hs
      · rw [if_neg hts] at h
        cases hp1 : parseClock ts with
        | none =>
          rw [hp1] at h
          dsimp only at h
          simp at h
        | some t1 =>
          rw [hp1] at h
          cases hp2 : parseClock tp.earliest with
          | none =>
            rw [hp2] at h
            dsimp only at h
            simp at h
          | some e1 =>
            rw [hp2] at h
            cases hp3 : parseClock tp.latest with
            | none =>
              rw [hp3] at h
              dsimp only at h
              simp at h
            | some l1 =>
              rw [hp3] at h
              dsimp only at h
              cases hrec : timesScan tp center dateStr rest with
              | none =>
                rw [hrec] at h
                dsimp only at h
                simp at h
              | some slots =>
                rw [hrec] at h
                dsimp only at h
                by_cases hkeep : timeValue e1 ≤ timeValue t1 ∧ timeValue t1 ≤ timeValue l1
                · rw [if_pos hkeep] at h
                  obtain rfl : (⟨center, dateStr, ts, slotSelector dateStr ts⟩ : Slot) ::
                      slots = res := by simpa using h
                  rcases List.mem_cons.mp hs with rfl | hmem
                  · exact ⟨rfl, rfl, t1, e1, l1, hp1, rfl, rfl, hkeep.1, hkeep.2⟩
                  · rw [← hp2, ← hp3]
                    exact ih slots hrec s hmem
                · rw [if_neg hkeep] at h
                  obtain rfl : slots = res := by simpa using h
                  rw [← hp2, ← hp3]
                  exact ih slots hrec s hs

/-- Every slot emitted by the date loop additionally has a date that parses,
lies in the configured inclusive range and falls on an allowed weekday. -/
theorem datesScan_mem (cfg : Config) (center : String) :
    ∀ (cells : List DateCell) (res : List Slot),
      datesScan cfg center cells = some res →
      ∀ s ∈ res,
        s.testCenter = center ∧
        (∃ d, parseDateStr s.date = some d ∧
          ¬ Date.lt d cfg.dateRange.startDate ∧ ¬ Date.lt cfg.dateRange.endDate d ∧
          pyWeekday d ∈ cfg.preferredDays) ∧
        (∃ t e l, parseClock s.time = some t ∧
          parseClock cfg.timePreference.earliest = some e ∧
          parseClock cfg.timePreference.latest = some l ∧
          timeValue e ≤ timeValue t ∧ timeValue t ≤ timeValue l) := by
  intro cells
  induction cells with
  | nil =>
    intro res h s hs
    simp only [datesScan, Option.some.injEq] at h
    subst h
    simp at hs
  | cons cell rest ih =>
    intro res h s hs
    simp only [datesScan] at h
    cases hda : cell.dateAttr with
    | none =>
      rw [hda] at h
      dsimp only at h
      exact ih res h s hs
    | some ds =>
      rw [hda] at h
      dsimp only at h
      by_cases hempty : ds = ""
      · rw [if_pos hempty] at h
        exact ih res h s hs
      · rw [if_neg hempty] at h
        cases hpd : parseDateStr ds with
        | none =>
          rw [hpd] at h
          dsimp only at h
          exact ih res h s hs
        | some d =>
          rw [hpd] at h
          dsimp only at h
          by_cases hrange : Date.lt d cfg.dateRange.startDate ∨ Date.lt cfg.dateRange.endDate d
          · rw [if_pos hrange] at h
            exact ih res h s hs
          · rw [if_neg hrange] at h
            by_cases hday : pyWeekday d ∈ cfg.preferredDays
            · rw [if_pos hday] at h
              cases htp : cell.timesPanel with
              | none =>
                rw [htp] at h
                dsimp only at h
                exact ih res h s hs
              | some tcells =>
                rw [htp] at h
                dsimp only at h
                cases hts : timesScan cfg.timePreference center ds tcells with
                | none =>
                  rw [hts] at h
                  dsimp only at h
                  simp at h
                | some here =>
                  rw [hts] at h
                  cases hrest : datesScan cfg center rest with
                  | none =>
                    rw [hrest] at h
                    dsimp only at h
                    simp at h
                  | some there =>
                    rw [hrest] at h
                    dsimp only at h
                    obtain rfl : here ++ there = res := by simpa using h
                    rcases List.mem_append.mp hs with hh | ht
                    · obtain ⟨hc, hdate, htime⟩ :=
                        timesScan_mem cfg.timePreference center ds tcells here hts s hh
                      refine ⟨hc, ⟨d, ?_, ?_, ?_, hday⟩, htime⟩
                      · rw [hdate]
                        exact hpd
                      · exact fun hcon => hrange (Or.inl hcon)
                      · exact fun hcon => hrange (Or.inr hcon)
                    · exact ih there hrest s ht
            · rw [if_neg hday] at h
              exact ih res h s hs

/-- Claim C3 (confirmed): every slot returned by `check_available_slots`
satisfies all three filters: its date string parses to a date inside the
inclusive configured range whose weekday is allowed, and its time, in
minutes since midnight, lies inside the inclusive configured window. -/
theorem check_available_slots_filters (cfg : Config) (tc : TestCenter) (searchOk : Bool)
    (cells : List DateCell) (s : Slot)
    (hs : s ∈ checkAvailableSlots cfg tc searchOk cells) :
    (∃ d, parseDateStr s.date = some d ∧
      ¬ Date.lt d cfg.dateRange.startDate ∧ ¬ Date.lt cfg.dateRange.endDate d ∧
      pyWeekday d ∈ cfg.preferredDays) ∧
    (∃ t e l, parseClock s.time = some t ∧
      parseClock cfg.timePreference.earliest = some e ∧
      parseClock cfg.timePreference.latest = some l ∧
      timeValue e ≤ timeValue t ∧ timeValue t ≤ timeValue l) := by
  unfold checkAvailableSlots at hs
  by_cases hok : searchOk = false
  · rw [if_pos hok] at hs
    simp at hs
  · rw [if_neg hok] at hs
    cases hd : datesScan cfg tc.name cells with
    | none =>
      rw [hd] at hs
      simp at hs
    | some slots =>
      rw [hd] at hs
      obtain ⟨_, hdate, htime⟩ := datesScan_mem cfg tc.name cells slots hd s hs
      exact ⟨hdate, htime⟩

/-- Witness for claim C3 at the scenario data: the slot produced for centre
B satisfies all three filters. -/
theorem check_available_slots_filters_witness :
    (∃ d, parseDateStr slotB.date = some d ∧
      ¬ Date.lt d scenarioCfg.dateRange.startDate ∧
      ¬ Date.lt scenarioCfg.dateRange.endDate d ∧
      pyWeekday d ∈ scenarioCfg.preferredDays) ∧
    (∃ t e l, parseClock slotB.time = some t ∧
      parseClock scenarioCfg.timePreference.earliest = some e ∧
      parseClock scenarioCfg.timePreference.latest = some l ∧
      timeValue e ≤ timeValue t ∧ timeValue t ≤ timeValue l) :=
  check_available_slots_filters scenarioCfg centerB true cellsB slotB (by decide)

/-! ## Booking confirmation -/

/-- Claim C2 (confirmed): `book_slot` reports success (and dispatches the
notification) only when the confirmation surface appeared and its text
contains a success keyword case-insensitively; an absent surface yields
failure, and failure never notifies. -/
theorem book_slot_confirmation_required (clicksOk : Bool) (conf : Option (Option String)) :
    ((bookSlot clicksOk conf).success = true →
      ∃ t, conf = some (some t) ∧ successKeyword t = true ∧
        (bookSlot clicksOk conf).notified = true) ∧
    (conf = none → bookSlot clicksOk conf = ⟨false, false⟩) ∧
    ((bookSlot clicksOk conf).success = false →
      (bookSlot clicksOk conf).notified = false) := by
  cases clicksOk with
  | false => simp [bookSlot]
  | true =>
    cases conf with
    | none => simp [bookSlot]
    | some c =>
      cases c with
      | none => simp [bookSlot]
      | some t =>
        cases hk : successKeyword t with
        | false => simp [bookSlot, hk]
        | true => simp [bookSlot, hk]

/-- Witness for claim C2: a confirmation surface reading "Your booking is
confirmed" yields success with a notification; an absent surface yields
failure with no notification. -/
theorem book_slot_confirmation_required_witness :
    (∃ t, (some (some "Your booking is confirmed") : Option (Option String)) =
        some (some t) ∧ successKeyword t = true ∧
        (bookSlot true (some (some "Your booking is confirmed"))).notified = true) ∧
    bookSlot true none = ⟨false, false⟩ :=
  ⟨(book_slot_confirmation_required true (some (some "Your booking is confirmed"))).1
      (by decide),
   (book_slot_confirmation_required true none).2.1 rfl⟩

/-! ## Proxy rotation -/

/-- Claim C5 (confirmed): `rotate_if_needed` is a no-op returning `false`
while the elapsed time is strictly below the current endpoint's interval;
once the interval is reached it returns `true`, advances the index by one in
cyclic order (wrapping from the last endpoint to the first) and resets the
rotation clock. -/
theorem rotate_if_needed_spec (now : Int) (r : RotatorState) (p : ProxyConfig)
    (hp : r.proxies.get? r.currentIndex = some p) :
    (now - r.lastRotationTime < p.rotationInterval →
      rotateIfNeeded now r = (false, r)) ∧
    (p.rotationInterval ≤ now - r.lastRotationTime →
      rotateIfNeeded now r = (true, rotate now r) ∧
      (r.currentIndex + 1 < r.proxies.length →
        (rotate now r).currentIndex = r.currentIndex + 1) ∧
      (r.currentIndex + 1 = r.proxies.length →
        (rotate now r).currentIndex = 0) ∧
      (rotate now r).lastRotationTime = now) := by
  constructor
  · intro hlt
    unfold rotateIfNeeded
    rw [hp]
    dsimp only
    rw [if_neg (not_le.mpr hlt)]
  · intro hge
    refine ⟨?_, ?_, ?_, rfl⟩
    · unfold rotateIfNeeded
      rw [hp]
      dsimp only
      rw [if_pos hge]
    · intro hlt
      exact Nat.mod_eq_of_lt hlt
    · intro heq
      show (r.currentIndex + 1) % r.proxies.length = 0
      rw [heq]
      exact Nat.mod_self _

/-- Witness for claim C5: on the last endpoint of a two-endpoint pool with
the interval elapsed, rotation fires and wraps back to the first endpoint. -/
theorem rotate_if_needed_spec_witness :
    rotateIfNeeded 100 exRotator2 = (true, rotate 100 exRotator2) ∧
    (rotate 100 exRotator2).currentIndex = 0 := by
  have h := rotate_if_needed_spec 100 exRotator2 exProxy2 (by decide)
  exact ⟨(h.2 (by decide)).1, (h.2 (by decide)).2.2.1 (by decide)⟩

/-! ## Blocking responses -/

/-- Claim C4 (corrected, monitored traffic): for a 403/429 response whose
URL the listener monitors (it contains "api" or "ajax"), a session restart
happens if and only if the timed rotation is due; when not due, nothing
changes, and when due, the proxy rotates and the restart is performed. -/
theorem handle_response_api_blocking_restart_iff_due
    (resp : ResponseEv) (now : Int) (r : RotatorState) (p : ProxyConfig)
    (hurl : apiLike resp.url = true)
    (hst : resp.status = 403 ∨ resp.status = 429)
    (hp : r.proxies.get? r.currentIndex = some p) :
    ((handleResponse resp now r).2 = true ↔
      p.rotationInterval ≤ now - r.lastRotationTime) ∧
    (now - r.lastRotationTime < p.rotationInterval →
      handleResponse resp now r = (r, false)) ∧
    (p.rotationInterval ≤ now - r.lastRotationTime →
      handleResponse resp now r = (rotate now r, true)) := by
  have hros := rotate_if_needed_spec now r p hp
  unfold handleResponse
  rw [if_pos hurl, if_pos hst]
  by_cases hdue : p.rotationInterval ≤ now - r.lastRotationTime
  · rw [(hros.2 hdue).1]
    dsimp only
    exact ⟨⟨fun _ => hdue, fun _ => rfl⟩, fun hlt => absurd hdue (not_le.mpr hlt),
      fun _ => rfl⟩
  · rw [hros.1 (not_le.mp hdue)]
    dsimp only
    exact ⟨⟨fun hfalse => absurd hfalse (by simp), fun hge => absurd hge hdue⟩,
      fun _ => rfl, fun hge => absurd hge hdue⟩

/-- Witness for claim C4 on monitored traffic: a 429 on an "api" URL with
the interval elapsed rotates and restarts. -/
theorem handle_response_api_blocking_restart_iff_due_witness :
    handleResponse ⟨"https://svc.example/api/slots", 429⟩ 1000 exRotator =
      (rotate 1000 exRotator, true) :=
  (handle_response_api_blocking_restart_iff_due ⟨"https://svc.example/api/slots", 429⟩
      1000 exRotator exProxy (by decide) (Or.inr rfl) (by decide)).2.2 (by decide)

/-- Claim C4 counterexample: a 429 response on a URL the listener does not
monitor (no "api"/"ajax" substring) with the rotation interval already
elapsed triggers neither rotation nor restart, falsifying the unconditional
"restart iff rotation due" reading of the claim. -/
theorem handle_response_nonmonitored_block_no_restart :
    apiLike "https://dvsa.example/manage" = false ∧
    exProxy.rotationInterval ≤ (1000 : Int) - exRotator.lastRotationTime ∧
    handleResponse ⟨"https://dvsa.example/manage", 429⟩ 1000 exRotator =
      (exRotator, false) := by
  decide

/-! ## Session restart -/

/-- Claim C9 (confirmed): every restart resets the logged-in flag to false,
and its teardown events occur in the fixed order page, context, browser —
each exactly when the corresponding handle is live — all before the session
is re-provisioned (the setup event is last). -/
theorem restart_session_ordered_teardown (s : SessionSt) :
    (restartSession s).1.loggedIn = false ∧
    List.Sublist (restartSession s).2
      [SessionEv.closePage, SessionEv.closeContext, SessionEv.closeBrowser,
        SessionEv.setupBrowser] ∧
    (restartSession s).2.getLast? = some SessionEv.setupBrowser ∧
    (s.hasPage = true → SessionEv.closePage ∈ (restartSession s).2) ∧
    (s.hasContext = true → SessionEv.closeContext ∈ (restartSession s).2) ∧
    (s.hasBrowser = true → SessionEv.closeBrowser ∈ (restartSession s).2) := by
  obtain ⟨p, c, b, l⟩ := s
  cases p <;> cases c <;> cases b <;> cases l <;> decide

/-- Witness for claim C9 at a fully live, authenticated session. -/
theorem restart_session_ordered_teardown_witness :
    (restartSession ⟨true, true, true, true⟩).1.loggedIn = false ∧
    SessionEv.closePage ∈ (restartSession ⟨true, true, true, true⟩).2 :=
  ⟨(restart_session_ordered_teardown ⟨true, true, true, true⟩).1,
   (restart_session_ordered_teardown ⟨true, true, true, true⟩).2.2.2.1 rfl⟩

/-! ## Fingerprint generation -/

/-- Claim C8 counterexample: two outcomes of the random choices produce the
locales "en-GB" and "en-US", so the generated locale is not fixed to the
target region's locale. -/
theorem fingerprint_locale_varies :
    (fpGenerate 0 0 0 0 0 0).locale = "en-GB" ∧
    (fpGenerate 0 0 0 0 0 1).locale = "en-US" ∧
    ("en-GB" : String) ≠ "en-US" := by
  refine ⟨rfl, rfl, ?_⟩
  decide

/-- Claim C8 (corrected): every generated profile carries the fixed
timezone "Europe/London", while the locale is drawn at random from the
two-element pool containing "en-GB" and "en-US" (hence not fixed). -/
theorem fingerprint_timezone_fixed_locale_pool (a b c d e f : Nat) :
    (fpGenerate a b c d e f).timezoneId = "Europe/London" ∧
    ((fpGenerate a b c d e f).locale = "en-GB" ∨
      (fpGenerate a b c d e f).locale = "en-US") := by
  constructor
  · rfl
  · rcases Nat.mod_two_eq_zero_or_one f with h | h
    · left
      show (["en-GB", "en-US"].getD (f % 2) "") = "en-GB"
      rw [h]
      rfl
    · right
      show (["en-GB", "en-US"].getD (f % 2) "") = "en-US"
      rw [h]
      rfl

/-! ## Honeypot avoidance -/

/-- Claim C7 (code bug): a field that is both the login target and
honeypot-flagged is detected by the scan, yet the typing primitive still
writes the credential into it — the scan only logs and installs no guard.
Evaluated at the concrete failing input `trapField`. -/
theorem honeypot_flagged_login_field_written :
    honeypotMatch trapField = true ∧
    trapField ∈ identifyAndAvoidHoneypots [trapField] ∧
    trapField ∈ loginTypedFields [trapField] := by
  decide

/-! ## Typing primitive -/

/-- The typing loop appends exactly the target text to the current
content: each mistake is erased by its single Backspace. -/
theorem typeCharsGo_spec :
    ∀ (text content : List Char) (ds : List TypeDecision),
      typeCharsGo content text ds = content ++ text := by
  intro text
  induction text with
  | nil =>
    intro content ds
    simp [typeCharsGo]
  | cons ch cs ih =>
    intro content ds
    simp only [typeCharsGo]
    rw [ih]
    unfold typeOneChar
    cases hm : (ds.headD ⟨false, ch⟩).mistake <;> simp

/-- Claim C10 (confirmed): for every target string, prior field content and
outcome of the random choices, `type_like_human` leaves the field containing
exactly the target string. -/
theorem type_like_human_exact (init text : List Char) (ds : List TypeDecision) :
    typeLikeHuman init text ds = text := by
  unfold typeLikeHuman
  rw [typeCharsGo_spec]
  simp

end Booking
